import Mathlib

/-!
Shallow embedding of `src/fetch.py` (lks-storage): a batch downloader that
walks a parsed JSON catalog of courses and materials, computes sanitized
destination paths and fetches each material.

The filesystem is modelled as a set of existing directories plus a map from
paths to byte contents; the network and the possibility of a write failure
are an oracle (`Env`).  JSON decoding itself is external library code; a
well-formed document is modelled as a `Catalog` record whose optional fields
mirror the `dict.get(key, default)` accesses in `main`, and the top-level
`__main__` guard is modelled by `runProgram` over an `Option Catalog`.
-/

namespace Fetch

/-- Byte strings are modelled as lists of naturals. -/
abbrev Bytes := List Nat

/-- One material record of the parsed document: `fileName` and `link` keys,
each possibly absent (line 63-64 read them with `dict.get` defaults). -/
structure Material where
  fileName : Option String
  link : Option String
deriving DecidableEq

/-- One course record: `title`, `uuid` and `materials` keys, possibly absent. -/
structure Course where
  title : Option String
  uuid : Option String
  materials : Option (List Material)
deriving DecidableEq

/-- The parsed top-level document: the `data` key, possibly absent. -/
structure Catalog where
  data : Option (List Course)
deriving DecidableEq

/-- Outcome of `requests.get` + `raise_for_status` for one URL. -/
inductive FetchOutcome where
  | ok (body : Bytes)
  | badStatus
  | transportError
deriving DecidableEq

/-- The ambient environment: the network oracle, and whether opening the
destination file for writing raises a filesystem error. -/
structure Env where
  net : String → FetchOutcome
  writeFails : String → Bool

/-- Filesystem state: the set of existing directories and the files. -/
structure FS where
  dirs : List String
  files : List (String × Bytes)
deriving DecidableEq

/-- Model of `os.makedirs(d, exist_ok=True)`: create the directory,
tolerating that it already exists. -/
def FS.mkdir (fs : FS) (d : String) : FS :=
  if d ∈ fs.dirs then fs else { fs with dirs := d :: fs.dirs }

/-- Model of `open(p, 'wb')` plus writing all chunks: overwrite the file at
`p` with `b`. -/
def FS.write (fs : FS) (p : String) (b : Bytes) : FS :=
  { fs with files := (p, b) :: fs.files.filter (fun e => ¬ (e.1 = p)) }

/-- Content of the file at `p`, if any. -/
def FS.getFile (fs : FS) (p : String) : Option Bytes :=
  (fs.files.find? (fun e => e.1 == p)).map (·.2)

/-- Model of `os.path.join(a, b)` for the path segments produced here. -/
def joinPath (a b : String) : String := a ++ "/" ++ b

/-- Model of `os.path.dirname(p)`: everything before the last `/`, or `""`
if there is no `/`. -/
def dirname (p : String) : String :=
  match p.data.reverse.dropWhile (fun c => !(c == '/')) with
  | [] => ""
  | _ :: rest => String.mk rest.reverse

/-- The characters `fetch.py` line 32 treats as invalid in file names. -/
def invalid_chars : List Char := ['<', '>', ':', '"', '/', '\\', '|', '?', '*']

/-- One `str.replace(c, '_')` step. -/
def replaceChar (s : String) (c : Char) : String :=
  String.mk (s.data.map (fun x => if x = c then '_' else x))

/-- Embedding of `sanitize_filename` (lines 29-35): replace each invalid
character by `_`. -/
def sanitize_filename (filename : String) : String :=
  invalid_chars.foldl replaceChar filename

/-- Processing state of the batch: the filesystem plus the trace of attempted
downloads, `(url, success)` in order. -/
abbrev St := FS × List (String × Bool)

/-- Embedding of `download_file(url, destination_path)` (lines 9-27): fetch the URL; on a
successful response create the parent directory and write the body,
returning `True`; any transport, status or filesystem error is caught and
yields `False` with no file written. -/
def download_file (env : Env) (url destination_path : String) (fs : FS) :
    Bool × FS :=
  match env.net url with
  | .transportError => (false, fs)
  | .badStatus => (false, fs)
  | .ok body =>
    let fs1 := fs.mkdir (dirname destination_path)
    if env.writeFails destination_path then (false, fs1)
    else (true, fs1.write destination_path body)

/-- The skip test of line 67: `not file_link or file_link.endswith(uuid)`,
with `uuid = course.get("uuid", "")`. -/
def skipMaterial (course : Course) (material : Material) : Bool :=
  (material.link.getD "" == "")
    || (course.uuid.getD "").data.isSuffixOf (material.link.getD "").data

/-- The file name of line 63: `sanitize_filename(material.get("fileName",
"unknown_file"))`. -/
def usedFileName (material : Material) : String :=
  sanitize_filename (material.fileName.getD "unknown_file")

/-- The body of the inner loop of `main` (lines 62-77): skip placeholders,
otherwise download to `course_dir / file_name` and record the outcome. -/
def processMaterial (env : Env) (course : Course) (course_dir : String)
    (st : St) (material : Material) : St :=
  let file_name := usedFileName material
  let file_link := material.link.getD ""
  if skipMaterial course material then st
  else
    let file_path := joinPath course_dir file_name
    let r := download_file env file_link file_path st.1
    (r.2, st.2 ++ [(file_link, r.1)])

/-- The body of the outer loop of `main` (lines 52-77): create the course
directory, then process each material. -/
def processCourse (env : Env) (base_dir : String) (st : St) (course : Course) :
    St :=
  let course_title := sanitize_filename (course.title.getD "Unknown")
  let course_dir := joinPath base_dir course_title
  let st1 : St := (st.1.mkdir course_dir, st.2)
  (course.materials.getD []).foldl (processMaterial env course course_dir) st1

/-- Embedding of `main(json_data, base_dir)` (lines 37-79) on an already parsed document:
create the base directory, then process each course of `data`. -/
def main (env : Env) (cat : Catalog) (base_dir : String) (fs : FS) : St :=
  (cat.data.getD []).foldl (processCourse env base_dir) (fs.mkdir base_dir, [])

/-- Embedding of the `__main__` guard (lines 110-122): validate the document text first
(modelled as `Option Catalog`, `none` for malformed text); on failure print
and exit 1 without calling `main`, otherwise run the batch and exit 0.
Returns `(exit code, final filesystem, download trace)`. -/
def runProgram (env : Env) (parsed : Option Catalog) (base_dir : String)
    (fs : FS) : Nat × FS × List (String × Bool) :=
  match parsed with
  | none => (1, fs, [])
  | some cat =>
    let r := main env cat base_dir fs
    (0, r.1, r.2)

/-- The course titles of a catalog, after the `get` defaults of line 53. -/
def courseTitles (cat : Catalog) : List String :=
  (cat.data.getD []).map (fun c => c.title.getD "Unknown")

/-- The links the batch attempts to download, in document order: each
non-skipped material of each course. -/
def attemptedLinks (cat : Catalog) : List String :=
  ((cat.data.getD []).map (fun c =>
    ((c.materials.getD []).filter (fun m => !skipMaterial c m)).map
      (fun m => m.link.getD ""))).flatten

/-- The destination path of lines 54, 63 and 71 for a material of a course. -/
def destPath (base_dir : String) (course : Course) (material : Material) :
    String :=
  joinPath (joinPath base_dir (sanitize_filename (course.title.getD "Unknown")))
    (usedFileName material)

/-- Pointwise effect of sanitization on a single character. -/
def sanitizeChar (c : Char) : Char := if c ∈ invalid_chars then '_' else c

/-! ### Concrete fixtures used to instantiate the theorems -/

/-- An environment in which every fetch succeeds with body `[7, 8]`. -/
def envAllOk : Env := ⟨fun _ => .ok [7, 8], fun _ => false⟩

/-- An environment in which every fetch raises a transport error. -/
def envDown : Env := ⟨fun _ => .transportError, fun _ => false⟩

/-- An environment mirroring the real filesystem at the empty-file-name
input: every fetch succeeds, but opening the directory-named path
`downloads/T/` for writing raises, as `open` does on a path that names an
existing directory (IsADirectoryError on POSIX). -/
def envDirClash : Env := ⟨fun _ => .ok [7, 8], fun p => p == "downloads/T/"⟩

/-- The first material of the worked example of the spec. -/
def mPdf : Material := ⟨some "notes:1.pdf", some "http://x/notes1.pdf"⟩

/-- The placeholder material of the worked example (link ends in the uuid). -/
def mPlaceholder : Material := ⟨some "f", some "http://x/u1"⟩

/-- A material with an empty (present) declared file name. -/
def mNoName : Material := ⟨some "", some "http://h/f"⟩

/-- The course of the worked example of the spec. -/
def cAlgo : Course := ⟨some "Algo 101", some "u1", some [mPdf, mPlaceholder]⟩

/-- A course whose single material has an empty declared file name. -/
def cEmptyName : Course := ⟨some "T", some "u1", some [mNoName]⟩

/-- A course record with no `uuid` key. -/
def cNoUuid : Course := ⟨some "T", none, some [⟨some "f", some "http://x/f"⟩]⟩

/-- The empty filesystem. -/
def fs0 : FS := ⟨[], []⟩

/-- The initial processing state. -/
def st0 : St := (fs0, [])

/-! ### Helper lemmas about `sanitize_filename` -/

theorem foldl_replaceChar (l : List Char) (s : String) :
    l.foldl replaceChar s
      = String.mk (s.data.map (fun c => if c ∈ l then '_' else c)) := by
  induction l generalizing s with
  | nil =>
    show s = String.mk (s.data.map fun c => if c ∈ ([] : List Char) then '_' else c)
    simp
  | cons c cs ih =>
    rw [List.foldl_cons, ih]
    show String.mk ((s.data.map _).map _) = _
    rw [List.map_map]
    congr 1
    apply List.map_congr_left
    intro x _
    by_cases hx : x = c
    · subst hx
      simp [Function.comp, List.mem_cons, ite_self]
    · simp [Function.comp, List.mem_cons, hx]

theorem sanitize_eq_map (s : String) :
    sanitize_filename s = String.mk (s.data.map sanitizeChar) :=
  foldl_replaceChar invalid_chars s

theorem sanitize_data (s : String) :
    (sanitize_filename s).data = s.data.map sanitizeChar := by
  rw [sanitize_eq_map]

theorem mem_sanitize_not_invalid {c : Char} {s : String}
    (h : c ∈ (sanitize_filename s).data) : c ∉ invalid_chars := by
  rw [sanitize_data] at h
  rcases List.mem_map.mp h with ⟨x, _, rfl⟩
  unfold sanitizeChar
  by_cases hx : x ∈ invalid_chars
  · rw [if_pos hx]
    decide
  · rwa [if_neg hx]

theorem no_slash_sanitize (s : String) : '/' ∉ (sanitize_filename s).data := by
  intro h
  exact mem_sanitize_not_invalid h (by decide)

theorem sanitizeChar_idem (c : Char) : sanitizeChar (sanitizeChar c) = sanitizeChar c := by
  unfold sanitizeChar
  by_cases hc : c ∈ invalid_chars
  · rw [if_pos hc]
    decide
  · rw [if_neg hc, if_neg hc]

/-! ### Helper lemmas about paths -/

theorem dropWhile_append_all {α : Type} (p : α → Bool) (l l' : List α)
    (h : ∀ a ∈ l, p a = true) : (l ++ l').dropWhile p = l'.dropWhile p := by
  induction l with
  | nil => rfl
  | cons a as ih =>
    rw [List.cons_append, List.dropWhile_cons, if_pos (h a (by simp))]
    exact ih (fun b hb => h b (by simp [hb]))

theorem dirname_joinPath (d f : String) (hf : '/' ∉ f.data) :
    dirname (joinPath d f) = d := by
  unfold dirname joinPath
  have hdata : (d ++ "/" ++ f).data.reverse
      = f.data.reverse ++ ('/' :: d.data.reverse) := by
    rw [String.data_append, String.data_append, List.reverse_append,
      List.reverse_append]
    rfl
  rw [hdata, dropWhile_append_all _ _ _ (by
    intro a ha
    have : a ∈ f.data := List.mem_reverse.mp ha
    simp only [Bool.not_eq_true']
    exact beq_false_of_ne (fun hc => hf (hc ▸ this)))]
  rw [List.dropWhile_cons]
  simp

/-! ### Helper lemmas about the filesystem model -/

theorem mem_mkdir_self (fs : FS) (d : String) : d ∈ (fs.mkdir d).dirs := by
  unfold FS.mkdir
  by_cases h : d ∈ fs.dirs
  · rw [if_pos h]
    exact h
  · rw [if_neg h]
    exact List.mem_cons_self _ _

theorem mkdir_of_mem (fs : FS) (d : String) (h : d ∈ fs.dirs) :
    fs.mkdir d = fs := by
  simp [FS.mkdir, h]

theorem toFinset_mkdir (fs : FS) (d : String) :
    (fs.mkdir d).dirs.toFinset = insert d fs.dirs.toFinset := by
  unfold FS.mkdir
  by_cases h : d ∈ fs.dirs
  · rw [if_pos h]
    exact (Finset.insert_eq_self.mpr (List.mem_toFinset.mpr h)).symm
  · rw [if_neg h]
    simp

theorem getFile_write (fs : FS) (p : String) (b : Bytes) :
    (fs.write p b).getFile p = some b := by
  simp [FS.write, FS.getFile]

/-! ### Helper lemmas about the processing loops -/

theorem trace_foldl_materials (env : Env) (c : Course) (cdir : String)
    (ms : List Material) (st : St) :
    ((ms.foldl (processMaterial env c cdir) st).2).map Prod.fst
      = st.2.map Prod.fst
        ++ (ms.filter (fun m => !skipMaterial c m)).map (fun m => m.link.getD "") := by
  induction ms generalizing st with
  | nil => simp
  | cons m rest ih =>
    rw [List.foldl_cons, ih]
    by_cases hm : skipMaterial c m = true
    · simp [processMaterial, hm, List.filter_cons]
    · have hm' : skipMaterial c m = false := by
        exact Bool.not_eq_true _ ▸ hm
      simp [processMaterial, hm', List.filter_cons]

theorem dirs_processMaterial (env : Env) (c : Course) (cdir : String) (st : St)
    (m : Material) (hd : cdir ∈ st.1.dirs) :
    (processMaterial env c cdir st m).1.dirs = st.1.dirs := by
  unfold processMaterial
  by_cases hm : skipMaterial c m = true
  · simp [hm]
  · have hm' : skipMaterial c m = false := by
      exact Bool.not_eq_true _ ▸ hm
    rw [if_neg (by simp [hm'])]
    show (download_file env (m.link.getD "") (joinPath cdir (usedFileName m)) st.1).2.dirs
      = st.1.dirs
    cases hnet : env.net (m.link.getD "") with
    | transportError => simp [download_file, hnet]
    | badStatus => simp [download_file, hnet]
    | ok body =>
      simp only [download_file, hnet]
      rw [dirname_joinPath cdir (usedFileName m) (no_slash_sanitize _)]
      rw [mkdir_of_mem st.1 cdir hd]
      by_cases hw : env.writeFails (joinPath cdir (usedFileName m)) = true
      · simp [hw]
      · simp [hw, FS.write]

theorem dirs_foldl_materials (env : Env) (c : Course) (cdir : String)
    (ms : List Material) (st : St) (hd : cdir ∈ st.1.dirs) :
    (ms.foldl (processMaterial env c cdir) st).1.dirs = st.1.dirs := by
  induction ms generalizing st with
  | nil => rfl
  | cons m rest ih =>
    rw [List.foldl_cons]
    have hstep := dirs_processMaterial env c cdir st m hd
    have := ih (processMaterial env c cdir st m) (by rw [hstep]; exact hd)
    rw [this, hstep]

theorem foldl_materials_all_skip (env : Env) (c : Course) (cdir : String)
    (ms : List Material) (st : St) (h : ∀ m ∈ ms, skipMaterial c m = true) :
    ms.foldl (processMaterial env c cdir) st = st := by
  induction ms generalizing st with
  | nil => rfl
  | cons m rest ih =>
    rw [List.foldl_cons]
    have hstep : processMaterial env c cdir st m = st := by
      simp [processMaterial, h m (by simp)]
    rw [hstep]
    exact ih st (fun x hx => h x (by simp [hx]))

theorem skipMaterial_of_uuid_none {c : Course} (h : c.uuid = none)
    (m : Material) : skipMaterial c m = true := by
  simp [skipMaterial, h, List.isSuffixOf]

theorem trace_processCourse (env : Env) (base : String) (st : St) (c : Course) :
    ((processCourse env base st c).2).map Prod.fst
      = st.2.map Prod.fst
        ++ ((c.materials.getD []).filter (fun m => !skipMaterial c m)).map
            (fun m => m.link.getD "") := by
  unfold processCourse
  rw [trace_foldl_materials]

theorem dirs_processCourse (env : Env) (base : String) (st : St) (c : Course) :
    (processCourse env base st c).1.dirs
      = (st.1.mkdir (joinPath base
          (sanitize_filename (c.title.getD "Unknown")))).dirs := by
  unfold processCourse
  rw [dirs_foldl_materials]
  exact mem_mkdir_self _ _

theorem trace_foldl_courses (env : Env) (base : String) (cs : List Course)
    (st : St) :
    ((cs.foldl (processCourse env base) st).2).map Prod.fst
      = st.2.map Prod.fst
        ++ (cs.map (fun c =>
            ((c.materials.getD []).filter (fun m => !skipMaterial c m)).map
              (fun m => m.link.getD ""))).flatten := by
  induction cs generalizing st with
  | nil => simp
  | cons c rest ih =>
    rw [List.foldl_cons, ih, trace_processCourse]
    simp

theorem dirs_foldl_courses (env : Env) (base : String) (cs : List Course)
    (st : St) :
    ((cs.foldl (processCourse env base) st).1.dirs).toFinset
      = st.1.dirs.toFinset
        ∪ (cs.map (fun c => joinPath base
            (sanitize_filename (c.title.getD "Unknown")))).toFinset := by
  induction cs generalizing st with
  | nil => simp
  | cons c rest ih =>
    rw [List.foldl_cons, ih]
    show ((processCourse env base st c).1.dirs).toFinset ∪ _ = _
    rw [dirs_processCourse, toFinset_mkdir]
    ext x
    simp [List.mem_toFinset]

theorem joinPath_left_injective (base : String) :
    Function.Injective (joinPath base) := by
  intro a b h
  unfold joinPath at h
  have hd := congrArg String.data h
  rw [String.data_append, String.data_append, String.data_append,
    String.data_append] at hd
  have h2 : a.data = b.data := List.append_cancel_left hd
  have : String.mk a.data = String.mk b.data := by rw [h2]
  exact this

theorem base_ne_joinPath (base t : String) : base ≠ joinPath base t := by
  intro h
  have hlen := congrArg (fun s => s.data.length) h
  simp only [joinPath, String.data_append, List.length_append,
    List.length_singleton] at hlen
  omega

/-! ### The claims -/

/-- C1: a material whose fetch succeeds (transport succeeds and the response
carries a successful status), and whose write is not obstructed by the
filesystem, produces a file at
`output_dir/sanitize(course title)/sanitize(material fileName)` whose byte
content equals the remote resource's body, overwriting any existing file at
that path (the prior state `st` is arbitrary, so it may already hold a file
there). -/
theorem fetched_material_written (env : Env) (c : Course) (base : String)
    (st : St) (m : Material) (body : Bytes)
    (hlink : m.link.getD "" ≠ "")
    (hsuf : (c.uuid.getD "").data.isSuffixOf (m.link.getD "").data = false)
    (hnet : env.net (m.link.getD "") = .ok body)
    (hw : env.writeFails (destPath base c m) = false) :
    (processMaterial env c
        (joinPath base (sanitize_filename (c.title.getD "Unknown"))) st
        m).1.getFile (destPath base c m) = some body := by
  have hskip : skipMaterial c m = false := by
    unfold skipMaterial
    rw [hsuf, beq_eq_false_iff_ne.mpr hlink]
    rfl
  unfold processMaterial
  rw [if_neg (by simp [hskip])]
  show (download_file env (m.link.getD "") (destPath base c m) st.1).2.getFile
      (destPath base c m) = some body
  simp only [download_file, hnet]
  rw [hw]
  simp only [Bool.false_eq_true, if_false]
  exact getFile_write _ _ _

/-- C1 witness: in the all-succeeding environment, processing the example
material writes its body at the computed destination path. -/
theorem fetched_material_written_witness :
    (processMaterial envAllOk cAlgo
        (joinPath "downloads" (sanitize_filename (cAlgo.title.getD "Unknown")))
        st0 mPdf).1.getFile (destPath "downloads" cAlgo mPdf) = some [7, 8] :=
  fetched_material_written envAllOk cAlgo "downloads" st0 mPdf [7, 8]
    (by decide) (by decide) rfl rfl

/-- C2: a material whose address is empty, or whose address ends with the
course's identifier token, is skipped: the processing state is returned
unchanged, so no download is attempted and no file is created, and this is
not an error. -/
theorem placeholder_material_skipped (env : Env) (c : Course) (cdir : String)
    (st : St) (m : Material)
    (h : m.link.getD "" = ""
      ∨ (c.uuid.getD "").data.isSuffixOf (m.link.getD "").data = true) :
    processMaterial env c cdir st m = st := by
  have hs : skipMaterial c m = true := by
    unfold skipMaterial
    rcases h with h | h
    · rw [h]
      rfl
    · rw [h]
      simp
  simp [processMaterial, hs]

/-- C2 witness: the example placeholder material (link `http://x/u1` ends in
the course uuid `u1`) leaves the state untouched. -/
theorem placeholder_material_skipped_witness :
    processMaterial envAllOk cAlgo "downloads/Algo 101" st0 mPlaceholder = st0 :=
  placeholder_material_skipped envAllOk cAlgo "downloads/Algo 101" st0
    mPlaceholder (Or.inr (by decide))

/-- C3: sanitization maps each character of the disallowed set to `_` and
leaves every other character (non-ASCII, whitespace, anything) unchanged;
consequently the result contains no disallowed character, and the empty
string is returned unchanged. -/
theorem sanitize_replaces_pointwise (s : String) :
    sanitize_filename s = String.mk (s.data.map sanitizeChar)
    ∧ (∀ c, c ∈ (sanitize_filename s).data → c ∉ invalid_chars)
    ∧ sanitize_filename "" = "" :=
  ⟨sanitize_eq_map s, fun _ h => mem_sanitize_not_invalid h, by decide⟩

/-- C3 witness: `n` occurs in the sanitized form of `"a/b:n"` and is not a
disallowed character. -/
theorem sanitize_replaces_pointwise_witness :
    'n' ∈ (sanitize_filename "a/b:n").data ∧ 'n' ∉ invalid_chars :=
  ⟨by decide, (sanitize_replaces_pointwise "a/b:n").2.1 'n' (by decide)⟩

/-- C4: sanitization is idempotent. -/
theorem sanitize_idempotent (s : String) :
    sanitize_filename (sanitize_filename s) = sanitize_filename s := by
  rw [sanitize_eq_map s, sanitize_eq_map]
  show String.mk ((s.data.map sanitizeChar).map sanitizeChar)
    = String.mk (s.data.map sanitizeChar)
  rw [List.map_map]
  congr 1
  apply List.map_congr_left
  intro x _
  exact sanitizeChar_idem x

/-- C5: missing optional fields degrade to defaults rather than failing: a
missing course list yields no processed course; a missing title behaves as
the fallback `"Unknown"`; a missing material list yields no materials, only
the course directory; a missing file name behaves as `"unknown_file"`; a
missing link behaves as the empty address. -/
theorem missing_fields_default :
    (∀ env base fs, main env ⟨none⟩ base fs = (fs.mkdir base, []))
    ∧ (∀ env base st u ms, processCourse env base st ⟨none, u, ms⟩
        = processCourse env base st ⟨some "Unknown", u, ms⟩)
    ∧ (∀ env base st t u, processCourse env base st ⟨t, u, none⟩
        = (st.1.mkdir (joinPath base (sanitize_filename (t.getD "Unknown"))),
            st.2))
    ∧ (∀ env c cdir st l, processMaterial env c cdir st ⟨none, l⟩
        = processMaterial env c cdir st ⟨some "unknown_file", l⟩)
    ∧ (∀ env c cdir st fn, processMaterial env c cdir st ⟨fn, none⟩
        = processMaterial env c cdir st ⟨fn, some ""⟩) :=
  ⟨fun _ _ _ => rfl, fun _ _ _ _ _ => rfl, fun _ _ _ _ _ => rfl,
    fun _ _ _ _ _ => rfl, fun _ _ _ _ _ => rfl⟩

/-- C6 counterexample: a material whose declared file name is present but
empty does NOT fall back to `unknown_file`. The name line 63 computes for
it is the empty string, so the destination path is the course directory
plus an empty segment, `downloads/T/` — not `downloads/T/unknown_file`.
Running the batch under the oracle that mirrors the real filesystem there
(the fetch succeeds, but opening the directory-named path `downloads/T/`
for writing raises), no file is created at all — in particular none named
`unknown_file` — and the material is reported as failed. -/
theorem empty_filename_no_fallback :
    usedFileName mNoName = ""
    ∧ usedFileName mNoName ≠ "unknown_file"
    ∧ destPath "downloads" cEmptyName mNoName = "downloads/T/"
    ∧ (main envDirClash ⟨some [cEmptyName]⟩ "downloads" fs0).1.files = []
    ∧ (main envDirClash ⟨some [cEmptyName]⟩ "downloads" fs0).2
        = [("http://h/f", false)] := by
  decide

/-- C6 amended: only a material whose declared file name is missing falls
back to `unknown_file`; an empty (present) file name is kept and sanitizes
to the empty string. -/
theorem missing_filename_fallback (m : Material) :
    (m.fileName = none → usedFileName m = "unknown_file")
    ∧ (m.fileName = some "" → usedFileName m = "") := by
  constructor
  · intro h
    unfold usedFileName
    rw [h]
    decide
  · intro h
    unfold usedFileName
    rw [h]
    decide

/-- C6 amended witness: the fallback fires for a missing file name and does
not fire for an empty one. -/
theorem missing_filename_fallback_witness :
    usedFileName ⟨none, some "l"⟩ = "unknown_file"
    ∧ usedFileName ⟨some "", some "l"⟩ = "" :=
  ⟨(missing_filename_fallback ⟨none, some "l"⟩).1 rfl,
    (missing_filename_fallback ⟨some "", some "l"⟩).2 rfl⟩

/-- C7: per-material failures are caught and do not halt the batch. First,
for every environment — including ones where fetches fail arbitrarily — the
trace of attempted downloads of a whole run is exactly the list of all
non-skipped materials of all courses in document order, so no failure ever
prevents a later material or course from being processed. Second and third,
a material whose fetch raises a transport error or returns a bad status, or
whose write raises a filesystem error, merely contributes a failure report
to the trace (leaving files untouched) and processing proceeds with the
remaining materials. -/
theorem failures_do_not_halt :
    (∀ env cat base fs,
      ((main env cat base fs).2).map Prod.fst = attemptedLinks cat)
    ∧ (∀ env c cdir st (m : Material) rest, skipMaterial c m = false →
        (env.net (m.link.getD "") = .transportError
          ∨ env.net (m.link.getD "") = .badStatus) →
        (m :: rest).foldl (processMaterial env c cdir) st
          = rest.foldl (processMaterial env c cdir)
              (st.1, st.2 ++ [(m.link.getD "", false)]))
    ∧ (∀ env c cdir st (m : Material) rest body, skipMaterial c m = false →
        env.net (m.link.getD "") = .ok body →
        env.writeFails (joinPath cdir (usedFileName m)) = true →
        (m :: rest).foldl (processMaterial env c cdir) st
          = rest.foldl (processMaterial env c cdir)
              (st.1.mkdir cdir, st.2 ++ [(m.link.getD "", false)])) := by
  refine ⟨?_, ?_, ?_⟩
  · intro env cat base fs
    unfold main attemptedLinks
    rw [trace_foldl_courses]
    rfl
  · intro env c cdir st m rest hskip hfail
    rw [List.foldl_cons]
    congr 1
    unfold processMaterial
    rw [if_neg (by simp [hskip])]
    rcases hfail with hfail | hfail
    · simp [download_file, hfail]
    · simp [download_file, hfail]
  · intro env c cdir st m rest body hskip hnet hw
    rw [List.foldl_cons]
    congr 1
    unfold processMaterial
    rw [if_neg (by simp [hskip])]
    simp only [download_file, hnet]
    rw [dirname_joinPath cdir (usedFileName m) (no_slash_sanitize _), hw]
    simp

/-- C7 witness: with the network down, a failing material is recorded as a
failure and processing continues with the rest of the list. -/
theorem failures_do_not_halt_witness :
    ([mPdf] : List Material).foldl
        (processMaterial envDown cAlgo "downloads/Algo 101") st0
      = ([] : List Material).foldl
          (processMaterial envDown cAlgo "downloads/Algo 101")
          (st0.1, st0.2 ++ [("http://x/notes1.pdf", false)]) :=
  failures_do_not_halt.2.1 envDown cAlgo "downloads/Algo 101" st0 mPdf []
    (by decide) (Or.inl rfl)

/-- C8: on a malformed input document (`none` from the external JSON
decoder) the program exits with a non-zero status, the filesystem is
untouched (no directories created), and no network activity happens (empty
download trace). -/
theorem malformed_input_aborts :
    ∀ env base fs, (runProgram env none base fs).1 ≠ 0
      ∧ (runProgram env none base fs).2.1 = fs
      ∧ (runProgram env none base fs).2.2 = [] :=
  fun _ _ _ => ⟨Nat.one_ne_zero, rfl, rfl⟩

/-- C8 witness at a concrete environment and filesystem. -/
theorem malformed_input_aborts_witness :
    (runProgram envAllOk none "downloads" fs0).1 ≠ 0 :=
  (malformed_input_aborts envAllOk "downloads" fs0).1

/-- C9: starting from an empty filesystem, the directories existing after a
run are exactly the base directory plus one directory per distinct
sanitized course title (a directory is created for every course, even one
with no downloadable materials; colliding sanitized titles share one
directory), so the number of course directories equals the number of
distinct sanitized titles; and directory creation tolerates an already
existing directory. -/
theorem course_dirs_counted (env : Env) (cat : Catalog) (base : String) :
    (main env cat base fs0).1.dirs.toFinset
      = insert base (((courseTitles cat).map
          (fun t => joinPath base (sanitize_filename t))).toFinset)
    ∧ ((main env cat base fs0).1.dirs.toFinset.erase base).card
        = ((courseTitles cat).map sanitize_filename).dedup.length
    ∧ (∀ (fs : FS) (d : String), d ∈ fs.dirs → fs.mkdir d = fs) := by
  have hdirs : (main env cat base fs0).1.dirs.toFinset
      = insert base (((courseTitles cat).map
          (fun t => joinPath base (sanitize_filename t))).toFinset) := by
    unfold main
    rw [dirs_foldl_courses, toFinset_mkdir]
    unfold courseTitles
    rw [List.map_map]
    ext x
    simp [fs0, Function.comp]
  refine ⟨hdirs, ?_, fun fs d h => mkdir_of_mem fs d h⟩
  rw [hdirs]
  have hnotmem : base ∉ ((courseTitles cat).map
      (fun t => joinPath base (sanitize_filename t))).toFinset := by
    rw [List.mem_toFinset, List.mem_map]
    rintro ⟨t, _, ht⟩
    exact base_ne_joinPath base (sanitize_filename t) ht.symm
  rw [Finset.erase_insert hnotmem]
  have himg : ((courseTitles cat).map
      (fun t => joinPath base (sanitize_filename t))).toFinset
      = (((courseTitles cat).map sanitize_filename).toFinset).image
          (joinPath base) := by
    ext x
    simp [List.mem_toFinset, List.mem_map]
  rw [himg, Finset.card_image_of_injective _ (joinPath_left_injective base),
    List.card_toFinset]

/-- C9 witness: an already existing directory is tolerated by `mkdir`. -/
theorem course_dirs_counted_witness :
    (FS.mk ["downloads"] []).mkdir "downloads" = FS.mk ["downloads"] [] :=
  (course_dirs_counted envAllOk ⟨none⟩ "x").2.2 (FS.mk ["downloads"] [])
    "downloads" (by decide)

/-- C10: a course record with no `uuid` key skips every one of its
materials, whatever their addresses: the default identifier is the empty
string and every string ends with the empty string, so only the course
directory is created — no download is attempted and no file is written. -/
theorem no_uuid_skips_all (env : Env) (base : String) (st : St) (c : Course)
    (h : c.uuid = none) :
    processCourse env base st c
      = (st.1.mkdir (joinPath base
          (sanitize_filename (c.title.getD "Unknown"))), st.2) := by
  unfold processCourse
  exact foldl_materials_all_skip _ _ _ _ _
    (fun m _ => skipMaterial_of_uuid_none h m)

/-- C10 witness: the uuid-less course with a real-looking material link
produces only its directory. -/
theorem no_uuid_skips_all_witness :
    processCourse envAllOk "downloads" st0 cNoUuid
      = (fs0.mkdir (joinPath "downloads" (sanitize_filename "T")), []) :=
  no_uuid_skips_all envAllOk "downloads" st0 cNoUuid rfl

end Fetch
